import Mathlib

/-!
Verification of the diffusion core of this repository
(`audioldm_train/modules/latent_diffusion/ddpm.py` and
`audioldm_train/train/pkboo.py`) against its natural-language
specification.

Tensors are embedded as functions `ι → ℝ` (all the operations under study
are elementwise); schedule buffers are embedded as lists of reals derived
from `betas` exactly as `DDPM.register_schedule` derives them, with
`extract_into_tensor(buf, t, shape)` embedded as indexing the buffer list
at `t`.  Python exceptions are embedded as an explicit error type returned
through `Except`.
-/

/-- Exceptions that the embedded code paths can raise. -/
inductive PyError where
  | indexError : PyError
  | notImplementedError : PyError
  | assertionError : PyError
  | unboundLocalError : PyError
  | typeError : PyError
  deriving DecidableEq, Repr

/-- Whether an embedded code path completed without raising. -/
def isOkExcept {ε α : Type} : Except ε α → Bool
  | .ok _ => true
  | .error _ => false

namespace DDPM

/-- Embedding of `np.cumprod` with an explicit running accumulator:
`cumprodFrom acc [x₀, x₁, …] = [acc*x₀, acc*x₀*x₁, …]`. -/
def cumprodFrom : ℝ → List ℝ → List ℝ
  | _, [] => []
  | acc, x :: xs => (acc * x) :: cumprodFrom (acc * x) xs

/-- Embedding of `np.cumprod(l)`. -/
def np_cumprod (l : List ℝ) : List ℝ := cumprodFrom 1 l

/-- Embedding of `alphas = 1.0 - betas` (ddpm.py line 198). -/
def alphas (betas : List ℝ) : List ℝ := betas.map (fun b => 1 - b)

/-- Embedding of `alphas_cumprod = np.cumprod(alphas, axis=0)` (ddpm.py line 199). -/
def alphas_cumprod (betas : List ℝ) : List ℝ := np_cumprod (alphas betas)

/-- Embedding of `alphas_cumprod_prev = np.append(1.0, alphas_cumprod[:-1])` (ddpm.py line 200). -/
def alphas_cumprod_prev (betas : List ℝ) : List ℝ :=
  1 :: (alphas_cumprod betas).dropLast

/-- The buffer `sqrt_alphas_cumprod` read at index `t` (ddpm.py line 217). -/
noncomputable def sqrt_alphas_cumprod (betas : List ℝ) (t : ℕ) : ℝ :=
  Real.sqrt ((alphas_cumprod betas).getD t 0)

/-- The buffer `sqrt_one_minus_alphas_cumprod` read at index `t` (ddpm.py line 218). -/
noncomputable def sqrt_one_minus_alphas_cumprod (betas : List ℝ) (t : ℕ) : ℝ :=
  Real.sqrt (1 - (alphas_cumprod betas).getD t 0)

/-- The buffer `sqrt_recip_alphas_cumprod` read at index `t` (ddpm.py line 220). -/
noncomputable def sqrt_recip_alphas_cumprod (betas : List ℝ) (t : ℕ) : ℝ :=
  Real.sqrt (1 / (alphas_cumprod betas).getD t 0)

/-- The buffer `sqrt_recipm1_alphas_cumprod` read at index `t` (ddpm.py line 221). -/
noncomputable def sqrt_recipm1_alphas_cumprod (betas : List ℝ) (t : ℕ) : ℝ :=
  Real.sqrt (1 / (alphas_cumprod betas).getD t 0 - 1)

/-- Embedding of `DDPM.q_sample` (ddpm.py lines 357-361) with the noise given explicitly,
elementwise on tensors `ι → ℝ`. -/
noncomputable def q_sample {ι : Type} (betas : List ℝ) (t : ℕ)
    (x_start noise : ι → ℝ) : ι → ℝ :=
  fun i => sqrt_alphas_cumprod betas t * x_start i +
    sqrt_one_minus_alphas_cumprod betas t * noise i

/-- Embedding of `DDPM.predict_start_from_noise` (ddpm.py lines 295-298). -/
noncomputable def predict_start_from_noise {ι : Type} (betas : List ℝ) (t : ℕ)
    (x_t noise : ι → ℝ) : ι → ℝ :=
  fun i => sqrt_recip_alphas_cumprod betas t * x_t i -
    sqrt_recipm1_alphas_cumprod betas t * noise i

/-- Embedding of `DDPM.predict_start_from_z_and_v` (ddpm.py lines 378-381). -/
noncomputable def predict_start_from_z_and_v {ι : Type} (betas : List ℝ) (t : ℕ)
    (x_t v : ι → ℝ) : ι → ℝ :=
  fun i => sqrt_alphas_cumprod betas t * x_t i -
    sqrt_one_minus_alphas_cumprod betas t * v i

/-- Embedding of `DDPM.predict_eps_from_z_and_v` (ddpm.py lines 383-386). -/
noncomputable def predict_eps_from_z_and_v {ι : Type} (betas : List ℝ) (t : ℕ)
    (x_t v : ι → ℝ) : ι → ℝ :=
  fun i => sqrt_alphas_cumprod betas t * v i +
    sqrt_one_minus_alphas_cumprod betas t * x_t i

/-- Embedding of `DDPM.get_v` (ddpm.py lines 388-391); note the source argument order `(x, noise, t)`. -/
noncomputable def get_v {ι : Type} (betas : List ℝ) (x noise : ι → ℝ) (t : ℕ) : ι → ℝ :=
  fun i => sqrt_alphas_cumprod betas t * noise i -
    sqrt_one_minus_alphas_cumprod betas t * x i

/-- Embedding of `posterior_variance = (1 - v_posterior) * betas * (1 - alphas_cumprod_prev)
/ (1 - alphas_cumprod) + v_posterior * betas`, read at index `t` (ddpm.py line 224). -/
noncomputable def posterior_variance (v_posterior : ℝ) (betas : List ℝ) (t : ℕ) : ℝ :=
  (1 - v_posterior) * betas.getD t 0 * (1 - (alphas_cumprod_prev betas).getD t 0) /
    (1 - (alphas_cumprod betas).getD t 0) + v_posterior * betas.getD t 0

/-- Embedding of `posterior_log_variance_clipped = log(maximum(posterior_variance, 1e-20))`,
read at index `t` (ddpm.py line 228). -/
noncomputable def posterior_log_variance_clipped (v_posterior : ℝ) (betas : List ℝ)
    (t : ℕ) : ℝ :=
  Real.log (max (posterior_variance v_posterior betas t) 1e-20)

/-- The failure behaviour of `DDPM.register_schedule` on an explicitly given
beta sequence (ddpm.py lines 185-245), returning the final `lvlb_weights`
buffer.  The source performs no validation of `betas` itself: the derived
coefficients are computed unconditionally (in this real-number embedding,
division by zero yields 0 where numpy would yield inf/nan without raising),
an unknown parameterization raises `NotImplementedError` in the `lvlb_weights`
branch (line 240), and the boundary override `lvlb_weights[0] = lvlb_weights[1]`
(line 243) raises `IndexError` whenever the schedule has fewer than two steps. -/
noncomputable def register_schedule (parameterization : String) (v_posterior : ℝ)
    (betas : List ℝ) : Except PyError (List ℝ) :=
  let T := betas.length
  let lvlb_branch : Except PyError (List ℝ) :=
    if parameterization = "eps" then
      .ok ((List.range T).map fun t =>
        (betas.getD t 0) ^ 2 /
          (2 * posterior_variance v_posterior betas t * (1 - betas.getD t 0) *
            (1 - (alphas_cumprod betas).getD t 0)))
    else if parameterization = "x0" then
      .ok ((List.range T).map fun t =>
        0.5 * Real.sqrt ((alphas_cumprod betas).getD t 0) /
          (2.0 * 1 - (alphas_cumprod betas).getD t 0))
    else if parameterization = "v" then
      .ok ((List.range T).map fun _ => 1)
    else .error .notImplementedError
  match lvlb_branch with
  | .error e => .error e
  | .ok lvlb =>
      if h : 1 < lvlb.length then .ok (lvlb.set 0 (lvlb.get ⟨1, h⟩))
      else .error .indexError

/-- The construction-time parameterization check of `DDPM.__init__`
(ddpm.py line 84): `assert parameterization in ["eps", "x0", "v"]`. -/
def init_parameterization_check (parameterization : String) : Except PyError Unit :=
  if parameterization = "eps" ∨ parameterization = "x0" ∨ parameterization = "v" then
    .ok ()
  else .error .assertionError

/-- The x0-estimate dispatch of the base-class `DDPM.p_mean_variance`
(ddpm.py lines 309-319): `x_recon` is assigned only in the `eps` and `x0`
branches, so for any other parameterization the subsequent read of `x_recon`
raises `UnboundLocalError`. -/
noncomputable def p_mean_variance_x_recon {ι : Type} (parameterization : String)
    (betas : List ℝ) (t : ℕ) (x model_out : ι → ℝ) : Except PyError (ι → ℝ) :=
  if parameterization = "eps" then .ok (predict_start_from_noise betas t x model_out)
  else if parameterization = "x0" then .ok model_out
  else .error .unboundLocalError

/-- Reading a Python local variable from the current local frame; a name the
frame does not bind raises `UnboundLocalError`. -/
def pyLookupLocal (locs : List (String × ℕ)) (name : String) : Except PyError ℕ :=
  match locs.lookup name with
  | some v => .ok v
  | none => .error .unboundLocalError

/-- Embedding of `DDPM.sample` (ddpm.py lines 351-355).  Line 353 builds
`shape = (batch_size, channels, self.latent_t_size, self.latent_f_size)`;
because `channels` is assigned on line 354 it is a local of the function body,
and at line 353 the local frame binds only `batch_size`, so the read of
`channels` raises `UnboundLocalError` before `p_sample_loop` is ever reached. -/
def sample (self_channels latent_t_size latent_f_size batch_size : ℕ) :
    Except PyError (ℕ × ℕ × ℕ × ℕ) := do
  let channels ← pyLookupLocal [("batch_size", batch_size)] "channels"
  let shape := (batch_size, channels, latent_t_size, latent_f_size)
  let _ := self_channels  -- line 354 `channels = self.channels` is never reached
  .ok shape

end DDPM

namespace LatentDiffusion

/-- The x0-estimate dispatch of `LatentDiffusion.p_mean_variance`
(ddpm.py lines 1130-1135): `eps` and `x0` are handled, any other
parameterization hits `raise NotImplementedError()`. -/
noncomputable def p_mean_variance_x_recon {ι : Type} (parameterization : String)
    (betas : List ℝ) (t : ℕ) (x model_out : ι → ℝ) : Except PyError (ι → ℝ) :=
  if parameterization = "eps" then
    .ok (DDPM.predict_start_from_noise betas t x model_out)
  else if parameterization = "x0" then .ok model_out
  else .error .notImplementedError

/-- Embedding of `LatentDiffusion.make_decision` (ddpm.py lines 839-843):
`float(torch.rand(1)) < probability`; `r` stands for the drawn uniform
sample, which lies in `[0, 1)`. -/
noncomputable def make_decision (r probability : ℝ) : Bool :=
  decide (r < probability)

/-- The once-per-batch CFG decision of `LatentDiffusion.get_input`
(ddpm.py line 921):
`unconditional_cfg = self.conditional_dry_run_finished and self.make_decision(unconditional_prob_cfg)`. -/
noncomputable def unconditional_cfg (conditional_dry_run_finished : Bool)
    (r probability : ℝ) : Bool :=
  conditional_dry_run_finished && make_decision r probability

/-- The conditioning dictionary built by `LatentDiffusion.get_input`
(ddpm.py lines 919-948): the CFG decision is computed once, before the loop
over conditioning keys, and every key's entry is the unconditional embedding
when that single decision is true and the learned conditioning otherwise. -/
noncomputable def get_input_cond {K V : Type} (keys : List K) (cond uncond : K → V)
    (conditional_dry_run_finished : Bool) (r probability : ℝ) : List (K × V) :=
  let u := unconditional_cfg conditional_dry_run_finished r probability
  keys.map fun k => (k, if u then uncond k else cond k)

end LatentDiffusion

/-- Predicate `listStartsWith pat l`: the char list `pat` is an initial segment of `l`. -/
def listStartsWith : List Char → List Char → Bool
  | [], _ => true
  | _ :: _, [] => false
  | p :: ps, c :: cs => p == c && listStartsWith ps cs

/-- Predicate `listContainsSub pat l`: the char list `pat` occurs contiguously in `l`. -/
def listContainsSub : List Char → List Char → Bool
  | pat, [] => listStartsWith pat []
  | pat, c :: cs => listStartsWith pat (c :: cs) || listContainsSub pat cs

/-- Python's substring test `pat in s`. -/
def strContains (s pat : String) : Bool := listContainsSub pat.data s.data

namespace DiffusionWrapper

/-- The key test of `DiffusionWrapper.__init__` (ddpm.py lines 1619-1626):
the key is legal when it contains one of the five fusion-mode substrings. -/
def conditioning_key_ok (key : String) : Bool :=
  strContains key "concat" || strContains key "crossattn" ||
    strContains key "hybrid" || strContains key "film" || strContains key "noncond"

/-- The conditioning-key validation loop of `DiffusionWrapper.__init__`
(ddpm.py lines 1619-1629).  The first key containing none of the five
substrings reaches `raise Value("The conditioning key %s is illegal" % key)`;
`Value` here is `multiprocessing.sharedctypes.Value` (imported on line 6), so
evaluating `Value(str)` itself throws `TypeError` — either way construction
fails on the spot. -/
def init_key_check (conditioning_key : List String) : Except PyError Unit :=
  match conditioning_key.find? (fun k => !conditioning_key_ok k) with
  | some _ => .error .typeError
  | none => .ok ()

/-- The value held under a cross-attention conditioning key: either a single
(context, attention-mask) pair, or a nested mapping (dict, in iteration
order) from names to such pairs. -/
inductive CrossattnVal (C M : Type) where
  | pair : C → M → CrossattnVal C M
  | nested : List (String × C × M) → CrossattnVal C M
  deriving DecidableEq

/-- The `crossattn` branch of `DiffusionWrapper.forward`
(ddpm.py lines 1654-1671), entered with `context`/`attn_mask` unbound.
For a nested dict the source loops `for k in cond_dict[key].keys(): if
"crossattn" in k: context, attn_mask = cond_dict[key][k]`, each match
overwriting the previous pair, and the two `append` calls sit **after** the
loop, so exactly one pair — the last matching one — is appended; if no inner
key matches, the appends read an unbound `context` (`UnboundLocalError`). -/
def crossattn_branch {C M : Type} (v : CrossattnVal C M)
    (context_list : List C) (attn_mask_list : List M) :
    Except PyError (List C × List M) :=
  match v with
  | .pair c m => .ok (context_list ++ [c], attn_mask_list ++ [m])
  | .nested entries =>
      match (entries.filter fun e => strContains e.1 "crossattn").getLast? with
      | some e => .ok (context_list ++ [e.2.1], attn_mask_list ++ [e.2.2])
      | none => .error .unboundLocalError

end DiffusionWrapper

namespace pkboo

/-- Embedding of `tensor.min()` over a (nonempty, finitely indexed) tensor. -/
noncomputable def tensor_min {ι : Type} [Fintype ι] [Nonempty ι] (f : ι → ℝ) : ℝ :=
  Finset.univ.inf' Finset.univ_nonempty f

/-- Embedding of `tensor.max()` over a (nonempty, finitely indexed) tensor. -/
noncomputable def tensor_max {ι : Type} [Fintype ι] [Nonempty ι] (f : ι → ℝ) : ℝ :=
  Finset.univ.sup' Finset.univ_nonempty f

open Classical in
/-- Embedding of `masking_torch_image` (pkboo.py lines 41-47).  The shape assert is
enforced by typing (both tensors share the index type `ι`); the range assert
`alpha.min() >= 0 and alpha.max() <= 1` raises `AssertionError` when violated;
otherwise the blend `(foreground - foreground.min()) * alpha + foreground.min()`
is returned elementwise. -/
noncomputable def masking_torch_image {ι : Type} [Fintype ι] [Nonempty ι]
    (foreground alpha : ι → ℝ) : Except PyError (ι → ℝ) :=
  if 0 ≤ tensor_min alpha ∧ tensor_max alpha ≤ 1 then
    .ok fun i => (foreground i - tensor_min foreground) * alpha i + tensor_min foreground
  else .error .assertionError

end pkboo

namespace DDPM

lemma cumprodFrom_length (acc : ℝ) (l : List ℝ) :
    (cumprodFrom acc l).length = l.length := by
  induction l generalizing acc with
  | nil => rfl
  | cons x xs ih => simp [cumprodFrom, ih]

lemma cumprodFrom_getD (acc : ℝ) (l : List ℝ) (t : ℕ) (ht : t < l.length) :
    (cumprodFrom acc l).getD t 0 = acc * (l.take (t + 1)).prod := by
  induction l generalizing acc t with
  | nil => simp at ht
  | cons x xs ih =>
    cases t with
    | zero => simp [cumprodFrom]
    | succ n =>
      have hn : n < xs.length := by simpa using ht
      simp only [cumprodFrom, List.getD_cons_succ, List.take_succ_cons, List.prod_cons]
      rw [ih (acc * x) n hn]
      ring

lemma np_cumprod_getD (l : List ℝ) (t : ℕ) (ht : t < l.length) :
    (np_cumprod l).getD t 0 = (l.take (t + 1)).prod := by
  rw [np_cumprod, cumprodFrom_getD 1 l t ht, one_mul]

lemma prod_pos_of_mem_pos {l : List ℝ} (h : ∀ x ∈ l, 0 < x) : 0 < l.prod := by
  induction l with
  | nil => simp
  | cons x xs ih =>
    simp only [List.prod_cons]
    have hx := h x (by simp)
    have hxs : ∀ y ∈ xs, 0 < y := fun y hy => h y (List.mem_cons_of_mem _ hy)
    exact mul_pos hx (ih hxs)

lemma prod_nonneg_of_mem_nonneg {l : List ℝ} (h : ∀ x ∈ l, 0 ≤ x) : 0 ≤ l.prod := by
  induction l with
  | nil => simp
  | cons x xs ih =>
    simp only [List.prod_cons]
    exact mul_nonneg (h x (by simp)) (ih fun y hy => h y (List.mem_cons_of_mem _ hy))

lemma prod_le_one_of_mem_le_one {l : List ℝ}
    (h : ∀ x ∈ l, 0 ≤ x ∧ x ≤ 1) : l.prod ≤ 1 := by
  induction l with
  | nil => simp
  | cons x xs ih =>
    simp only [List.prod_cons]
    have hx := h x (by simp)
    have hxs : ∀ y ∈ xs, 0 ≤ y ∧ y ≤ 1 := fun y hy => h y (List.mem_cons_of_mem _ hy)
    have hp : 0 ≤ xs.prod := prod_nonneg_of_mem_nonneg fun y hy => (hxs y hy).1
    calc x * xs.prod ≤ 1 * 1 := mul_le_mul hx.2 (ih hxs) hp (by norm_num)
      _ = 1 := by norm_num

/-- For a valid schedule (every `β ∈ (0,1)`), the cumulative product
`alphas_cumprod[t]` lies in `(0, 1]`. -/
lemma alphas_cumprod_pos_le_one (betas : List ℝ)
    (hb : ∀ b ∈ betas, 0 < b ∧ b < 1) (t : ℕ) (ht : t < betas.length) :
    0 < (alphas_cumprod betas).getD t 0 ∧ (alphas_cumprod betas).getD t 0 ≤ 1 := by
  have hlen : t < (alphas betas).length := by simpa [alphas] using ht
  rw [alphas_cumprod, np_cumprod_getD _ t hlen]
  have hmem : ∀ x ∈ (alphas betas).take (t + 1), 0 < x ∧ x < 1 := by
    intro x hx
    have hx' : x ∈ alphas betas := List.mem_of_mem_take hx
    rcases List.mem_map.mp hx' with ⟨b, hbmem, rfl⟩
    have := hb b hbmem
    constructor <;> linarith [this.1, this.2]
  constructor
  · exact prod_pos_of_mem_pos (fun x hx => (hmem x hx).1)
  · exact prod_le_one_of_mem_le_one
      (fun x hx => ⟨le_of_lt (hmem x hx).1, le_of_lt (hmem x hx).2⟩)

lemma alphas_cumprod_length (betas : List ℝ) :
    (alphas_cumprod betas).length = betas.length := by
  simp [alphas_cumprod, np_cumprod, cumprodFrom_length, alphas]

lemma alphas_cumprod_getD_eq_prod (betas : List ℝ) (t : ℕ) (ht : t < betas.length) :
    (alphas_cumprod betas).getD t 0 =
      ((betas.take (t + 1)).map (fun b => 1 - b)).prod := by
  have hlen : t < (alphas betas).length := by simpa [alphas] using ht
  rw [alphas_cumprod, np_cumprod_getD _ t hlen, alphas, List.map_take]

lemma alphas_cumprod_prev_getD (betas : List ℝ) (t : ℕ) (ht : t < betas.length) :
    (alphas_cumprod_prev betas).getD t 0 =
      if t = 0 then 1 else (alphas_cumprod betas).getD (t - 1) 0 := by
  cases t with
  | zero => simp [alphas_cumprod_prev]
  | succ n =>
    have hlen : n < (alphas_cumprod betas).length - 1 := by
      rw [alphas_cumprod_length]; omega
    simp only [alphas_cumprod_prev, List.getD_cons_succ, Nat.succ_ne_zero, if_false,
      Nat.succ_sub_one]
    rw [List.getD_eq_getElem?_getD, List.getD_eq_getElem?_getD, List.getElem?_dropLast]
    simp [hlen]

end DDPM

/-- C1: for every `x0`, every timestep `t ∈ [0, T)` of a valid schedule, and
every noise tensor of `x0`'s shape, `q_sample(x0, t, noise)` equals
`sqrt(alphas_cumprod[t])·x0 + sqrt(1−alphas_cumprod[t])·noise` (with
`alphas_cumprod[t]` the product of the first `t+1` values of `1−β`), and
`predict_start_from_noise` applied to that result with the same `t` and
`noise` returns `x0` exactly (real arithmetic). -/
theorem q_sample_formula_and_roundtrip
    (betas : List ℝ) (hb : ∀ b ∈ betas, 0 < b ∧ b < 1)
    (t : ℕ) (ht : t < betas.length) (ι : Type) (x0 noise : ι → ℝ) :
    DDPM.q_sample betas t x0 noise = (fun i =>
        Real.sqrt (((betas.take (t + 1)).map (fun b => 1 - b)).prod) * x0 i +
        Real.sqrt (1 - ((betas.take (t + 1)).map (fun b => 1 - b)).prod) * noise i) ∧
    DDPM.predict_start_from_noise betas t (DDPM.q_sample betas t x0 noise) noise = x0 := by
  obtain ⟨ha, _⟩ := DDPM.alphas_cumprod_pos_le_one betas hb t ht
  have hprod := DDPM.alphas_cumprod_getD_eq_prod betas t ht
  set a := (DDPM.alphas_cumprod betas).getD t 0 with hadef
  constructor
  · funext i
    simp only [DDPM.q_sample, DDPM.sqrt_alphas_cumprod, DDPM.sqrt_one_minus_alphas_cumprod,
      ← hadef, hprod]
  · funext i
    simp only [DDPM.predict_start_from_noise, DDPM.q_sample, DDPM.sqrt_alphas_cumprod,
      DDPM.sqrt_one_minus_alphas_cumprod, DDPM.sqrt_recip_alphas_cumprod,
      DDPM.sqrt_recipm1_alphas_cumprod, ← hadef]
    have h1 : Real.sqrt (1 / a) * Real.sqrt a = 1 := by
      rw [← Real.sqrt_mul (by positivity) a, one_div_mul_cancel (ne_of_gt ha),
        Real.sqrt_one]
    have h2 : Real.sqrt (1 / a) * Real.sqrt (1 - a) = Real.sqrt (1 / a - 1) := by
      rw [← Real.sqrt_mul (by positivity) (1 - a)]
      congr 1
      field_simp
    linear_combination (x0 i) * h1 + (noise i) * h2

/-- C1 witness: the round trip evaluated on the one-step schedule `β = [1/2]`
at `t = 0` with `x0 = 2`, `noise = 3`. -/
theorem q_sample_formula_and_roundtrip_witness :
    DDPM.predict_start_from_noise [(1/2 : ℝ)] 0
      (DDPM.q_sample [(1/2 : ℝ)] 0 (fun _ : Unit => 2) (fun _ => 3)) (fun _ => 3) =
      (fun _ : Unit => 2) :=
  (q_sample_formula_and_roundtrip [(1/2 : ℝ)]
    (by intro b hbm; rw [List.mem_singleton] at hbm; subst hbm; norm_num)
    0 (by norm_num) Unit _ _).2

/-- C6: `get_v`, `predict_start_from_z_and_v` and `predict_eps_from_z_and_v`
form a closed algebraic loop: with `v = get_v(x0, noise, t)` and
`x_t = sqrt(ᾱ_t)·x0 + sqrt(1−ᾱ_t)·noise` (which is `q_sample`),
`predict_start_from_z_and_v(x_t, t, v) = x0` and
`predict_eps_from_z_and_v(x_t, t, v) = noise` exactly (real arithmetic). -/
theorem v_parameterization_roundtrip
    (betas : List ℝ) (hb : ∀ b ∈ betas, 0 < b ∧ b < 1)
    (t : ℕ) (ht : t < betas.length) (ι : Type) (x0 noise : ι → ℝ) :
    DDPM.predict_start_from_z_and_v betas t
        (DDPM.q_sample betas t x0 noise) (DDPM.get_v betas x0 noise t) = x0 ∧
    DDPM.predict_eps_from_z_and_v betas t
        (DDPM.q_sample betas t x0 noise) (DDPM.get_v betas x0 noise t) = noise := by
  obtain ⟨ha, ha1⟩ := DDPM.alphas_cumprod_pos_le_one betas hb t ht
  set a := (DDPM.alphas_cumprod betas).getD t 0 with hadef
  have hs : Real.sqrt a ^ 2 = a := Real.sq_sqrt (le_of_lt ha)
  have hs' : Real.sqrt (1 - a) ^ 2 = 1 - a := Real.sq_sqrt (by linarith)
  constructor
  · funext i
    simp only [DDPM.predict_start_from_z_and_v, DDPM.q_sample, DDPM.get_v,
      DDPM.sqrt_alphas_cumprod, DDPM.sqrt_one_minus_alphas_cumprod, ← hadef]
    linear_combination (x0 i) * hs + (x0 i) * hs'
  · funext i
    simp only [DDPM.predict_eps_from_z_and_v, DDPM.q_sample, DDPM.get_v,
      DDPM.sqrt_alphas_cumprod, DDPM.sqrt_one_minus_alphas_cumprod, ← hadef]
    linear_combination (noise i) * hs + (noise i) * hs'

/-- C6 witness: the v-parameterization loop evaluated on the one-step schedule
`β = [1/2]` at `t = 0` with `x0 = 2`, `noise = 3`. -/
theorem v_parameterization_roundtrip_witness :
    DDPM.predict_start_from_z_and_v [(1/2 : ℝ)] 0
        (DDPM.q_sample [(1/2 : ℝ)] 0 (fun _ : Unit => 2) (fun _ => 3))
        (DDPM.get_v [(1/2 : ℝ)] (fun _ : Unit => 2) (fun _ => 3) 0) =
      (fun _ : Unit => 2) :=
  (v_parameterization_roundtrip [(1/2 : ℝ)]
    (by intro b hbm; rw [List.mem_singleton] at hbm; subst hbm; norm_num)
    0 (by norm_num) Unit _ _).1

/-- C2 (counterexample): with interpolation weight `v_posterior = 1` and the
schedule `β = [1/2]`, the posterior variance at `t = 0` is `1·β₀ = 1/2`, not
`0`, and the stored clipped log variance is `log(1/2) ≠ log(1e-20)` — the
claimed `t = 0` floor identity fails for `v_posterior ≠ 0`. -/
theorem posterior_logvar_floor_counterexample :
    DDPM.posterior_log_variance_clipped 1 [(1/2 : ℝ)] 0 ≠ Real.log 1e-20 := by
  have hpv : DDPM.posterior_variance 1 [(1/2 : ℝ)] 0 = 1/2 := by
    simp [DDPM.posterior_variance, DDPM.alphas_cumprod_prev, DDPM.alphas_cumprod,
      DDPM.np_cumprod, DDPM.cumprodFrom, DDPM.alphas]
  have hmax : max (DDPM.posterior_variance 1 [(1/2 : ℝ)] 0) 1e-20 = 1/2 := by
    rw [hpv]
    exact max_eq_left (by norm_num)
  have hlt : Real.log 1e-20 < Real.log (1/2) :=
    Real.log_lt_log (by norm_num) (by norm_num)
  rw [DDPM.posterior_log_variance_clipped, hmax]
  exact fun h => absurd h (ne_of_gt hlt)

/-- C2 (amended): `register_schedule` stores the posterior variance at `t` as
`(1-v)·β_t·(1-ᾱ_{t-1})/(1-ᾱ_t) + v·β_t` with `ᾱ_{-1}` taken as `1`, and clips
at the floor `1e-20` before taking the log; at `t = 0` the posterior variance
equals `v_posterior·β₀`, so the stored clipped log variance equals exactly
`log(1e-20)` when `v_posterior = 0` (where the variance is exactly `0`). -/
theorem posterior_variance_schedule
    (v : ℝ) (betas : List ℝ) :
    (∀ t, t < betas.length → DDPM.posterior_variance v betas t =
        (1 - v) * betas.getD t 0 *
          (1 - (if t = 0 then 1 else (DDPM.alphas_cumprod betas).getD (t - 1) 0)) /
          (1 - (DDPM.alphas_cumprod betas).getD t 0) + v * betas.getD t 0) ∧
    (∀ t, DDPM.posterior_log_variance_clipped v betas t =
        Real.log (max (DDPM.posterior_variance v betas t) 1e-20)) ∧
    DDPM.posterior_variance v betas 0 = v * betas.getD 0 0 ∧
    DDPM.posterior_log_variance_clipped 0 betas 0 = Real.log 1e-20 := by
  refine ⟨fun t ht => ?_, fun t => rfl, ?_, ?_⟩
  · rw [DDPM.posterior_variance, DDPM.alphas_cumprod_prev_getD betas t ht]
  · rw [DDPM.posterior_variance]
    have h0 : (DDPM.alphas_cumprod_prev betas).getD 0 0 = 1 := by
      simp [DDPM.alphas_cumprod_prev]
    rw [h0]
    ring_nf
  · have hpv : DDPM.posterior_variance 0 betas 0 = 0 := by
      have h0 : (DDPM.alphas_cumprod_prev betas).getD 0 0 = 1 := by
        simp [DDPM.alphas_cumprod_prev]
      rw [DDPM.posterior_variance, h0]
      ring_nf
    rw [DDPM.posterior_log_variance_clipped, hpv, max_eq_right (by norm_num)]

/-- C2 witness: the amended posterior-variance facts evaluated on the
schedule `β = [1/4, 1/3]` with `v_posterior = 1/5` at `t = 1`. -/
theorem posterior_variance_schedule_witness :
    DDPM.posterior_variance (1/5) [(1/4 : ℝ), 1/3] 1 =
      (1 - 1/5) * ([(1/4 : ℝ), 1/3].getD 1 0) *
        (1 - (if (1 : ℕ) = 0 then 1 else (DDPM.alphas_cumprod [(1/4 : ℝ), 1/3]).getD 0 0)) /
        (1 - (DDPM.alphas_cumprod [(1/4 : ℝ), 1/3]).getD 1 0) +
        (1/5) * ([(1/4 : ℝ), 1/3].getD 1 0) :=
  (posterior_variance_schedule (1/5) [(1/4 : ℝ), 1/3]).1 1 (by norm_num)

/-- C3 (counterexample): the parameterization `"v"` passes the construction
assert of `DDPM.__init__`, yet `LatentDiffusion.p_mean_variance` raises
`NotImplementedError` for it when a sampling step computes the x0 estimate —
an accepted parameterization does fail inside the sampling loop. -/
theorem v_accepted_then_fails_mid_loop :
    DDPM.init_parameterization_check "v" = Except.ok () ∧
    LatentDiffusion.p_mean_variance_x_recon "v" [(1/2 : ℝ)] 0
        (fun _ : Unit => 0) (fun _ => 0) = Except.error PyError.notImplementedError := by
  constructor
  · rfl
  · rfl

/-- C3 (amended): an unsupported parameterization fails at construction time
(the `DDPM.__init__` assert), and the accepted parameterizations `"eps"` and
`"x0"` compute an x0 estimate in every sampling step without raising; but the
accepted parameterization `"v"` raises during sampling — `NotImplementedError`
in `LatentDiffusion.p_mean_variance` and an unbound-local read of `x_recon`
in the base `DDPM.p_mean_variance`. -/
theorem parameterization_failure_semantics :
    (∀ p : String, ¬(p = "eps" ∨ p = "x0" ∨ p = "v") →
        DDPM.init_parameterization_check p = Except.error PyError.assertionError) ∧
    (∀ (ι : Type) (betas : List ℝ) (t : ℕ) (x out : ι → ℝ),
        LatentDiffusion.p_mean_variance_x_recon "eps" betas t x out =
          Except.ok (DDPM.predict_start_from_noise betas t x out) ∧
        LatentDiffusion.p_mean_variance_x_recon "x0" betas t x out = Except.ok out ∧
        DDPM.p_mean_variance_x_recon "eps" betas t x out =
          Except.ok (DDPM.predict_start_from_noise betas t x out) ∧
        DDPM.p_mean_variance_x_recon "x0" betas t x out = Except.ok out) ∧
    (DDPM.init_parameterization_check "v" = Except.ok () ∧
     ∀ (ι : Type) (betas : List ℝ) (t : ℕ) (x out : ι → ℝ),
        LatentDiffusion.p_mean_variance_x_recon "v" betas t x out =
          Except.error PyError.notImplementedError ∧
        DDPM.p_mean_variance_x_recon "v" betas t x out =
          Except.error PyError.unboundLocalError) := by
  refine ⟨fun p hp => ?_, fun ι betas t x out => ⟨rfl, rfl, rfl, rfl⟩,
    rfl, fun ι betas t x out => ⟨rfl, rfl⟩⟩
  rw [DDPM.init_parameterization_check, if_neg hp]

/-- C3 witness: the construction-time failure applied to the unsupported
parameterization `"mu"`. -/
theorem parameterization_failure_semantics_witness :
    DDPM.init_parameterization_check "mu" = Except.error PyError.assertionError :=
  parameterization_failure_semantics.1 "mu" (by decide)

/-- C4 (counterexample): `register_schedule` accepts the beta sequence
`[1/2, 2]`, which contains the value `2 ≥ 1`, and completes without raising —
there is no range validation of the betas at registration. -/
theorem register_schedule_accepts_beta_ge_one :
    isOkExcept (DDPM.register_schedule "eps" 0 [(1/2 : ℝ), 2]) = true := by
  rfl

/-- C4 (amended): `register_schedule` performs no validation of the beta
values — a sequence containing `2 ≥ 1` registers without error — and a beta
sequence with fewer than two entries (in particular the empty one) fails not
with a configuration error but with an `IndexError` at the boundary override
`lvlb_weights[0] = lvlb_weights[1]`, i.e. only after all derived coefficients
have been computed. -/
theorem register_schedule_validation :
    (∀ (v : ℝ) (betas : List ℝ), betas.length ≤ 1 →
        DDPM.register_schedule "eps" v betas = Except.error PyError.indexError) ∧
    isOkExcept (DDPM.register_schedule "eps" 0 [(1/2 : ℝ), 2]) = true := by
  refine ⟨fun v betas h => ?_, rfl⟩
  rw [DDPM.register_schedule]
  simp only [eq_self_iff_true, if_true]
  rw [dif_neg (by simp only [List.length_map, List.length_range]; omega)]

/-- C4 witness: the registration failure applied to the empty beta sequence. -/
theorem register_schedule_validation_witness :
    DDPM.register_schedule "eps" 0 ([] : List ℝ) = Except.error PyError.indexError :=
  register_schedule_validation.1 0 [] (by decide)

/-- C5 (counterexample): on the very first forward pass
(`conditional_dry_run_finished = False`) with dropout probability `1` and
rand draw `0`, `get_input` keeps the learned conditioning (here `0`) and does
not substitute the unconditional embedding (here `1`) — probability `1` does
not replace the bundle on every forward pass. -/
theorem cfg_dropout_first_pass_counterexample :
    LatentDiffusion.get_input_cond [(0 : ℕ)] (fun _ => (0 : ℝ)) (fun _ => 1)
        false 0 1 ≠ [((0 : ℕ), (1 : ℝ))] ∧
    LatentDiffusion.get_input_cond [(0 : ℕ)] (fun _ => (0 : ℝ)) (fun _ => 1)
        false 0 1 = [((0 : ℕ), (0 : ℝ))] := by
  have h : LatentDiffusion.get_input_cond [(0 : ℕ)] (fun _ => (0 : ℝ)) (fun _ => 1)
      false 0 1 = [((0 : ℕ), (0 : ℝ))] := by
    simp [LatentDiffusion.get_input_cond, LatentDiffusion.unconditional_cfg]
  refine ⟨?_, h⟩
  rw [h]
  intro hc
  have := List.head_eq_of_cons_eq hc
  have : (0 : ℝ) = 1 := congrArg Prod.snd this
  norm_num at this

/-- C5 (amended): during training, with dropout probability `0` `get_input`
never substitutes the unconditional embedding for any key on any pass; with
probability `1` it substitutes the entire bundle on every pass after the
first (the decision `conditional_dry_run_finished and make_decision(p)` is
false on the first, dry-run, pass regardless of `p`); and the decision is
made once per batch and applied to all keys — the produced bundle is either
entirely conditional or entirely unconditional. -/
theorem cfg_dropout_semantics :
    (∀ (K V : Type) (keys : List K) (cond uncond : K → V) (d : Bool) (r : ℝ),
        0 ≤ r →
        LatentDiffusion.get_input_cond keys cond uncond d r 0 =
          keys.map fun k => (k, cond k)) ∧
    (∀ (K V : Type) (keys : List K) (cond uncond : K → V) (r : ℝ),
        r < 1 →
        LatentDiffusion.get_input_cond keys cond uncond true r 1 =
          keys.map fun k => (k, uncond k)) ∧
    (∀ (K V : Type) (keys : List K) (cond uncond : K → V) (r p : ℝ),
        LatentDiffusion.get_input_cond keys cond uncond false r p =
          keys.map fun k => (k, cond k)) ∧
    (∀ (K V : Type) (keys : List K) (cond uncond : K → V) (d : Bool) (r p : ℝ),
        LatentDiffusion.get_input_cond keys cond uncond d r p =
          (keys.map fun k => (k, cond k)) ∨
        LatentDiffusion.get_input_cond keys cond uncond d r p =
          (keys.map fun k => (k, uncond k))) := by
  refine ⟨fun K V keys cond uncond d r hr => ?_,
    fun K V keys cond uncond r hr => ?_,
    fun K V keys cond uncond r p => ?_,
    fun K V keys cond uncond d r p => ?_⟩
  · have hdec : LatentDiffusion.make_decision r 0 = false := by
      simp only [LatentDiffusion.make_decision, decide_eq_false_iff_not, not_lt]
      exact hr
    simp [LatentDiffusion.get_input_cond, LatentDiffusion.unconditional_cfg, hdec]
  · have hdec : LatentDiffusion.make_decision r 1 = true := by
      simp only [LatentDiffusion.make_decision, decide_eq_true_eq]
      exact hr
    simp [LatentDiffusion.get_input_cond, LatentDiffusion.unconditional_cfg, hdec]
  · simp [LatentDiffusion.get_input_cond, LatentDiffusion.unconditional_cfg]
  · rcases h : LatentDiffusion.unconditional_cfg d r p with _ | _
    · left
      simp [LatentDiffusion.get_input_cond, h]
    · right
      simp [LatentDiffusion.get_input_cond, h]

/-- C5 witness: probability-0 dropout on a concrete one-key bundle after the
dry run keeps the learned conditioning. -/
theorem cfg_dropout_semantics_witness :
    LatentDiffusion.get_input_cond [(0 : ℕ)] (fun _ => (5 : ℝ)) (fun _ => 7)
        true 0 0 = [((0 : ℕ), (5 : ℝ))] :=
  cfg_dropout_semantics.1 ℕ ℝ [0] (fun _ => 5) (fun _ => 7) true 0 le_rfl

/-- C7: evaluating the `crossattn` branch of `DiffusionWrapper.forward` on a
nested mapping holding two (context, mask) pairs — `("crossattn_a", (1, 2))`
and `("crossattn_b", (3, 4))` — appends only the last pair, producing lists
of length one (`([3], [4])`), not one entry per pair as the spec requires:
the two `append` calls sit outside the inner `for` loop. -/
theorem nested_crossattn_collects_only_last_pair :
    DiffusionWrapper.crossattn_branch
        (DiffusionWrapper.CrossattnVal.nested
          [("crossattn_a", (1 : ℕ), (2 : ℕ)), ("crossattn_b", 3, 4)]) [] [] =
      Except.ok ([3], [4]) := by
  rfl

/-- C8: `DiffusionWrapper.__init__` fails at construction exactly when some
conditioning key contains none of the substrings `concat`, `crossattn`,
`hybrid`, `film`, `noncond`; a key list in which every key contains at least
one of them is accepted without error. -/
theorem conditioning_key_validation (keys : List String) :
    (DiffusionWrapper.init_key_check keys = Except.ok () ↔
      ∀ k ∈ keys,
        (strContains k "concat" || strContains k "crossattn" ||
          strContains k "hybrid" || strContains k "film" ||
          strContains k "noncond") = true) ∧
    (DiffusionWrapper.init_key_check keys = Except.ok () ∨
      DiffusionWrapper.init_key_check keys = Except.error PyError.typeError) := by
  rw [DiffusionWrapper.init_key_check]
  rcases h : keys.find? (fun k => !DiffusionWrapper.conditioning_key_ok k) with _ | k
  · rw [List.find?_eq_none] at h
    refine ⟨⟨fun _ k hk => ?_, fun _ => rfl⟩, Or.inl rfl⟩
    have h1 : DiffusionWrapper.conditioning_key_ok k = true := by
      rcases Bool.eq_false_or_eq_true (DiffusionWrapper.conditioning_key_ok k) with h2 | h2
      · exact h2
      · exact absurd (show (!DiffusionWrapper.conditioning_key_ok k) = true by
          rw [h2]; rfl) (h k hk)
    rw [DiffusionWrapper.conditioning_key_ok] at h1
    exact h1
  · have hmem := List.mem_of_find?_eq_some h
    have hbad := List.find?_some h
    rw [Bool.not_eq_true'] at hbad
    refine ⟨⟨fun hc => absurd hc (by simp), fun hall => ?_⟩, Or.inr rfl⟩
    have h1 := hall k hmem
    rw [DiffusionWrapper.conditioning_key_ok] at hbad
    simp [h1] at hbad

/-- C9: for every foreground tensor (with an alpha tensor of the same shape,
values in `[0,1]`), `masking_torch_image` with `alpha` identically `0`
returns exactly the foreground's minimum value broadcast over the
foreground's shape, and with `alpha` identically `1` returns exactly the
original foreground unchanged (real arithmetic). -/
theorem masking_alpha_endpoints (ι : Type) [Fintype ι] [Nonempty ι]
    (foreground : ι → ℝ) :
    pkboo.masking_torch_image foreground (fun _ => 0) =
      Except.ok (fun _ => pkboo.tensor_min foreground) ∧
    pkboo.masking_torch_image foreground (fun _ => 1) = Except.ok foreground := by
  constructor
  · rw [pkboo.masking_torch_image, if_pos]
    · congr 1
      funext i
      ring
    · constructor
      · simp [pkboo.tensor_min, Finset.inf'_const]
      · simp [pkboo.tensor_max, Finset.sup'_const]
  · rw [pkboo.masking_torch_image, if_pos]
    · congr 1
      funext i
      ring
    · constructor
      · simp [pkboo.tensor_min, Finset.inf'_const]
      · simp [pkboo.tensor_max, Finset.sup'_const]

/-- C9 witness: the `alpha = 1` endpoint evaluated on the constant foreground
`5` over a one-element shape. -/
theorem masking_alpha_endpoints_witness :
    pkboo.masking_torch_image (fun _ : Unit => (5 : ℝ)) (fun _ => 1) =
      Except.ok (fun _ : Unit => (5 : ℝ)) :=
  (masking_alpha_endpoints Unit (fun _ => 5)).2

/-- C10: every call of the base-class `DDPM.sample` raises
`UnboundLocalError` while building the shape tuple — the local `channels` is
read on line 353 before the assignment `channels = self.channels` on line 354
binds it — so `sample` never returns a sampled latent, for any attribute
values and batch size. -/
theorem sample_always_unbound_local (self_channels latent_t latent_f batch_size : ℕ) :
    DDPM.sample self_channels latent_t latent_f batch_size =
      Except.error PyError.unboundLocalError := by
  rfl
